import Mathlib

/-!
Shallow embedding of the rice_monitor backend (Go, Gin + Firestore) and
verification of its specification claims.

Modelling conventions:
* Firestore collections are association lists keyed by document id; document
  reads, writes, field-path updates and deletes are modelled on those lists.
* `time.Time` values are modelled as natural-number instants (Unix seconds).
* `float64` model fields (coordinates, area, trait lengths) are modelled as
  `Int`: no claim performs arithmetic on them.
* The HMAC-SHA256 signature of a JWT is modelled symbolically: a signature is
  the pair of the signing key and the signed payload, so two signatures agree
  exactly when both key and payload agree (the ideal-MAC assumption).
* Handlers are pure functions from the store, the authenticated caller and the
  request data to a response and the resulting store.
-/

namespace RiceMonitor

/-! ## Data model (src/backend/models/models.go) -/

/-- GPS coordinates (`models.Location`); float64 modelled as Int. -/
structure Location where
  latitude : Int
  longitude : Int
  deriving Repr, DecidableEq

/-- Trait measurement value object (`models.TraitMeasurements`). -/
structure TraitMeasurements where
  culmLength : Int
  panicleLength : Int
  paniclesPerHill : Int
  hillsObserved : Int
  deriving Repr, DecidableEq

/-- A user (`models.User`). Times are Unix-second instants. -/
structure User where
  id : String
  email : String
  name : String
  picture : String
  role : String
  createdAt : Nat
  updatedAt : Nat
  lastLoginAt : Nat
  deriving Repr, DecidableEq

/-- A rice field (`models.Field`). -/
structure Field where
  id : String
  name : String
  location : String
  riceVariety : String
  tentativeDate : String
  coordinates : Location
  area : Int
  ownerId : String
  createdAt : Nat
  updatedAt : Nat
  deriving Repr, DecidableEq

/-- A monitoring submission (`models.Submission`). -/
structure Submission where
  id : String
  userId : String
  fieldId : String
  date : Nat
  growthStage : String
  plantConditions : List String
  traitMeasurements : TraitMeasurements
  notes : String
  observerName : String
  images : List String
  status : String
  createdAt : Nat
  updatedAt : Nat
  deriving Repr, DecidableEq

/-- Create-submission request body (`models.CreateSubmissionRequest`).
The binding struct has no `id` and no `status` field: a caller cannot
supply either. -/
structure CreateSubmissionRequest where
  fieldId : String
  date : Nat
  growthStage : String
  plantConditions : List String
  traitMeasurements : TraitMeasurements
  notes : String
  observerName : String
  images : List String
  deriving Repr, DecidableEq

/-- Submission response enriched with the resolved field
(`models.SubmissionResponse`). -/
structure SubmissionResponse where
  id : String
  userId : String
  fieldId : String
  field : Field
  date : Nat
  growthStage : String
  plantConditions : List String
  traitMeasurements : TraitMeasurements
  notes : String
  observerName : String
  images : List String
  status : String
  createdAt : Nat
  updatedAt : Nat
  deriving Repr, DecidableEq

/-- Google user info extracted from a verified ID-token payload
(`models.GoogleUserInfo`). -/
structure GoogleUserInfo where
  email : String
  name : String
  picture : String
  deriving Repr, DecidableEq

/-! ## Firestore model

A collection is an association list from document id to document.
`getDoc` is `Doc(id).Get` (error when absent), `setDoc` is `Doc(id).Set`
(create or replace), `deleteDoc` is `Doc(id).Delete`. -/

abbrev Collection (α : Type) : Type := List (String × α)

namespace Collection

def getDoc {α : Type} : Collection α → String → Option α
  | [], _ => none
  | kv :: t, id => if kv.1 = id then some kv.2 else getDoc t id

def setDoc {α : Type} (col : Collection α) (id : String) (v : α) : Collection α :=
  List.filter (fun kv => kv.1 != id) col ++ [(id, v)]

def deleteDoc {α : Type} (col : Collection α) (id : String) : Collection α :=
  List.filter (fun kv => kv.1 != id) col

/-- All documents of a collection, in document order. -/
def docs {α : Type} (col : Collection α) : List α :=
  List.map Prod.snd col

end Collection

/-- The Firestore instance: the three collections the handlers touch
(`services.FirestoreService`: `Users()`, `Fields()`, `Submissions()`). -/
structure Firestore where
  users : Collection User
  fieldDocs : Collection Field
  submissions : Collection Submission
  deriving Repr, DecidableEq

/-! ## Token service (src/backend/utils/utils.go) -/

/-- JWT claims carried by access and refresh tokens (`models.Claims`).
`exp` and `iat` are the registered expiry / issued-at instants. -/
structure Claims where
  userId : String
  email : String
  role : String
  exp : Nat
  iat : Nat
  deriving Repr, DecidableEq

/-- Symbolic HMAC signature: the signing key together with the signed
payload. Two signatures are equal exactly when both components are
(ideal-MAC assumption for HS256). -/
structure Sig where
  key : String
  payload : Claims
  deriving Repr, DecidableEq

/-- A signed JWT: claims plus signature over those claims. -/
structure Token where
  claims : Claims
  sig : Sig
  deriving Repr, DecidableEq

/-- `jwt.NewWithClaims(HS256, claims).SignedString(secret)`. -/
def signClaims (secret : String) (c : Claims) : Token :=
  { claims := c, sig := { key := secret, payload := c } }

/-- `utils.GenerateTokens`: access token expiring in 1 hour and refresh
token expiring in 7 days, both carrying the user's id, email and role,
both signed with the server secret. -/
def GenerateTokens (secret : String) (u : User) (now : Nat) : Token × Token :=
  ( signClaims secret
      { userId := u.id, email := u.email, role := u.role
        exp := now + 3600, iat := now }
  , signClaims secret
      { userId := u.id, email := u.email, role := u.role
        exp := now + 7 * 24 * 3600, iat := now } )

/-- `utils.ValidateToken`: recompute the signature with the server secret
and compare, then check the registered expiry against the current time
(jwt/v4 treats a token as expired once `now` is not before `exp`). -/
def ValidateToken (secret : String) (now : Nat) (t : Token) : Except String Claims :=
  if t.sig ≠ { key := secret, payload := t.claims : Sig } then
    .error "signature is invalid"
  else if t.claims.exp ≤ now then
    .error "token is expired"
  else
    .ok t.claims

/-- Suffix test on strings, written on the underlying character lists
(`filename[len(filename)-len(ext):] == ext` in the source). -/
def strHasSuffix (s ext : String) : Bool :=
  List.isSuffixOf ext.data s.data

/-- `utils.ValidateFileType`: allow-listed extension suffix check. -/
def ValidateFileType (filename : String) : Bool :=
  [".jpg", ".jpeg", ".png", ".webp"].any (fun ext => strHasSuffix filename ext)

/-! ## Handler outcomes

A handler either succeeds with a payload or returns the JSON error envelope
`ErrorResponse` with its HTTP status code and error kind. -/

inductive HOut (α : Type) where
  | ok (v : α)
  | err (status : Nat) (kind : String)
  deriving Repr, DecidableEq

def HOut.isOk {α : Type} : HOut α → Bool
  | .ok _ => true
  | .err _ _ => false

/-! ## Partial-update payloads

`PUT` bodies bind to `map[string]interface{}`; a JSON object gives one entry
per distinct key. `FsValue` covers the value shapes the two documents store;
an update whose path is not a known field of the struct (or whose value shape
does not match the field) leaves the modelled document unchanged, mirroring
that `doc.DataTo` ignores stray document fields on read-back. -/

inductive FsValue where
  | s (v : String)
  | i (v : Int)
  | t (v : Nat)
  | strs (v : List String)
  | traits (v : TraitMeasurements)
  | coords (v : Location)
  deriving Repr, DecidableEq

/-- `delete(updateData, key)` on the bound Go map. -/
def mapDelete (key : String) (data : List (String × FsValue)) : List (String × FsValue) :=
  List.filter (fun kv => kv.1 != key) data

/-- `updateData[key] = value` on the bound Go map. -/
def mapInsert (key : String) (v : FsValue) (data : List (String × FsValue)) :
    List (String × FsValue) :=
  List.filter (fun kv => kv.1 != key) data ++ [(key, v)]

/-- One `firestore.Update` with path `kv.1` and value `kv.2` applied to a
stored submission document (firestore tag names from `models.Submission`). -/
def applySubmissionUpdate (s : Submission) (kv : String × FsValue) : Submission :=
  match kv with
  | (k, .s v) =>
    if k = "id" then { s with id := v }
    else if k = "user_id" then { s with userId := v }
    else if k = "field_id" then { s with fieldId := v }
    else if k = "growth_stage" then { s with growthStage := v }
    else if k = "notes" then { s with notes := v }
    else if k = "observer_name" then { s with observerName := v }
    else if k = "status" then { s with status := v }
    else s
  | (k, .t v) =>
    if k = "date" then { s with date := v }
    else if k = "created_at" then { s with createdAt := v }
    else if k = "updated_at" then { s with updatedAt := v }
    else s
  | (k, .strs v) =>
    if k = "plant_conditions" then { s with plantConditions := v }
    else if k = "images" then { s with images := v }
    else s
  | (k, .traits v) =>
    if k = "trait_measurements" then { s with traitMeasurements := v }
    else s
  | (_, _) => s

/-- One `firestore.Update` applied to a stored field document
(firestore tag names from `models.Field`). -/
def applyFieldUpdate (f : Field) (kv : String × FsValue) : Field :=
  match kv with
  | (k, .s v) =>
    if k = "id" then { f with id := v }
    else if k = "name" then { f with name := v }
    else if k = "location" then { f with location := v }
    else if k = "rice_variety" then { f with riceVariety := v }
    else if k = "tentative_date" then { f with tentativeDate := v }
    else if k = "owner_id" then { f with ownerId := v }
    else f
  | (k, .t v) =>
    if k = "created_at" then { f with createdAt := v }
    else if k = "updated_at" then { f with updatedAt := v }
    else f
  | (k, .coords v) =>
    if k = "coordinates" then { f with coordinates := v }
    else f
  | (k, .i v) =>
    if k = "area" then { f with area := v }
    else f
  | (_, _) => f

/-- The update list the submission handler sends to Firestore: the handler
deletes `id`, `user_id` and `created_at` from the bound map, force-sets
`updated_at`, and prepends one more `updated_at` update. -/
def submissionUpdateList (data : List (String × FsValue)) (now : Nat) :
    List (String × FsValue) :=
  ("updated_at", .t now) ::
    mapInsert "updated_at" (.t now)
      (mapDelete "created_at" (mapDelete "user_id" (mapDelete "id" data)))

/-- The update list the field handler sends to Firestore: `id`, `owner_id`
and `created_at` are stripped, `updated_at` force-set and prepended. -/
def fieldUpdateList (data : List (String × FsValue)) (now : Nat) :
    List (String × FsValue) :=
  ("updated_at", .t now) ::
    mapInsert "updated_at" (.t now)
      (mapDelete "created_at" (mapDelete "owner_id" (mapDelete "id" data)))

/-- Duplicate test on a list of field paths. -/
def pathsHaveDup : List String → Bool
  | [] => false
  | p :: rest => rest.contains p || pathsHaveDup rest

/-- `DocumentRef.Update` of the Go Firestore client: the update list is
validated client-side before any write and rejected when two entries carry
the same field path (`checkNoDupOrPrefix`); only a duplicate-free list is
applied to the stored document, one field path at a time. -/
def firestoreUpdate {α : Type} (applyOne : α → String × FsValue → α)
    (doc : α) (updates : List (String × FsValue)) : Except String α :=
  if pathsHaveDup (updates.map Prod.fst) then .error "duplicate field path"
  else .ok (updates.foldl applyOne doc)

/-! ## Character-split helper for stating CSV shape properties -/

/-- Split a character list at every occurrence of `c`. -/
def splitCharAux (c : Char) : List Char → List (List Char)
  | [] => [[]]
  | x :: xs =>
    match splitCharAux c xs with
    | [] => [[]]
    | g :: gs => if x = c then [] :: g :: gs else (x :: g) :: gs

/-- Split a string at every occurrence of `c` (so a text of `n`
newline-terminated lines splits at the newline into `n` lines plus one
trailing empty piece). -/
def splitChar (c : Char) (s : String) : List String :=
  (splitCharAux c s.data).map String.mk

/-! ## Field handlers (src/backend/handlers/fields.go) -/

namespace FieldsHandler

/-- `getFieldByID` helper: `Fields().Doc(id).Get` + `DataTo`. -/
def getFieldByID (db : Firestore) (fieldID : String) : Option Field :=
  db.fieldDocs.getDoc fieldID

/-- `GetFields`: lists every document of the fields collection. The handler
reads the collection without any owner or role filter, so the caller is not
consulted at all. -/
def GetFields (db : Firestore) : List Field :=
  db.fieldDocs.docs

/-- `GetField`: fetch by id, 404 when absent, 403 when the caller is not the
owner and not an admin. -/
def GetField (db : Firestore) (user : User) (fieldID : String) : HOut Field :=
  match getFieldByID db fieldID with
  | none => .err 404 "not_found"
  | some field =>
    if user.role ≠ "admin" ∧ field.ownerId ≠ user.id then
      .err 403 "forbidden"
    else
      .ok field

/-- `UpdateField`: fetch, ownership check, strip protected keys, force-set
`updated_at`, then hand the built update list to `DocumentRef.Update`; a
client-side rejection of the list (the handler's `err != nil` branch)
answers 500 `internal_error` with the store untouched, otherwise the
re-read document is returned. -/
def UpdateField (db : Firestore) (user : User) (fieldID : String)
    (data : List (String × FsValue)) (now : Nat) : HOut Field × Firestore :=
  match getFieldByID db fieldID with
  | none => (.err 404 "not_found", db)
  | some field =>
    if user.role ≠ "admin" ∧ field.ownerId ≠ user.id then
      (.err 403 "forbidden", db)
    else
      match firestoreUpdate applyFieldUpdate field (fieldUpdateList data now) with
      | .error _ => (.err 500 "internal_error", db)
      | .ok updated =>
        let db2 : Firestore := { db with fieldDocs := db.fieldDocs.setDoc fieldID updated }
        match getFieldByID db2 fieldID with
        | none => (.err 500 "internal_error", db2)
        | some fresh => (.ok fresh, db2)

/-- `DeleteField`: fetch, ownership check, permanent delete. -/
def DeleteField (db : Firestore) (user : User) (fieldID : String) :
    HOut Unit × Firestore :=
  match getFieldByID db fieldID with
  | none => (.err 404 "not_found", db)
  | some field =>
    if user.role ≠ "admin" ∧ field.ownerId ≠ user.id then
      (.err 403 "forbidden", db)
    else
      (.ok (), { db with fieldDocs := db.fieldDocs.deleteDoc fieldID })

end FieldsHandler

/-! ## Submission handlers, variant A (src/backend/handlers/submissions.go)

The repository carries two divergent submission-handler files. Variant A
reads the submission document directly and does not resolve the referenced
field. -/

namespace SubmissionsA

/-- `GetSubmission` (variant A): fetch by id, 404 when absent, 403 when the
caller is neither owner nor admin; the referenced field is not resolved. -/
def GetSubmission (db : Firestore) (user : User) (submissionID : String) :
    HOut Submission :=
  match db.submissions.getDoc submissionID with
  | none => .err 404 "not_found"
  | some sub =>
    if user.role ≠ "admin" ∧ sub.userId ≠ user.id then
      .err 403 "forbidden"
    else
      .ok sub

/-- `UpdateSubmission` (identical in both variants): fetch, ownership check,
strip protected keys, force-set `updated_at`, then hand the built update
list to `DocumentRef.Update`; a client-side rejection of the list (the
handler's `err != nil` branch) answers 500 `internal_error` with the store
untouched, otherwise the re-read document is returned. -/
def UpdateSubmission (db : Firestore) (user : User) (submissionID : String)
    (data : List (String × FsValue)) (now : Nat) : HOut Submission × Firestore :=
  match db.submissions.getDoc submissionID with
  | none => (.err 404 "not_found", db)
  | some sub =>
    if user.role ≠ "admin" ∧ sub.userId ≠ user.id then
      (.err 403 "forbidden", db)
    else
      match firestoreUpdate applySubmissionUpdate sub (submissionUpdateList data now) with
      | .error _ => (.err 500 "internal_error", db)
      | .ok updated =>
        let db2 : Firestore :=
          { db with submissions := db.submissions.setDoc submissionID updated }
        match db2.submissions.getDoc submissionID with
        | none => (.err 500 "internal_error", db2)
        | some fresh => (.ok fresh, db2)

/-- `DeleteSubmission` (identical in both variants). -/
def DeleteSubmission (db : Firestore) (user : User) (submissionID : String) :
    HOut Unit × Firestore :=
  match db.submissions.getDoc submissionID with
  | none => (.err 404 "not_found", db)
  | some sub =>
    if user.role ≠ "admin" ∧ sub.userId ≠ user.id then
      (.err 403 "forbidden", db)
    else
      (.ok (), { db with submissions := db.submissions.deleteDoc submissionID })

end SubmissionsA

/-! ## Date rendering

`time.Time.Format("2006-01-02")` rendered from a Unix-second instant via the
standard civil-from-days conversion (proleptic Gregorian, UTC). -/

def pad2 (n : Int) : String :=
  if n < 10 then "0" ++ toString n else toString n

/-- Year, month and day of the civil date `z` days after 1970-01-01. -/
def civilFromDays (z0 : Int) : Int × Int × Int :=
  let z := z0 + 719468
  let era := (if 0 ≤ z then z else z - 146096) / 146097
  let doe := z - era * 146097
  let yoe := (doe - doe / 1460 + doe / 36524 - doe / 146096) / 365
  let y := yoe + era * 400
  let doy := doe - (365 * yoe + yoe / 4 - yoe / 100)
  let mp := (5 * doy + 2) / 153
  let d := doy - (153 * mp + 2) / 5 + 1
  let m := mp + (if mp < 10 then 3 else -9)
  (y + (if m ≤ 2 then 1 else 0), m, d)

/-- `t.Format("2006-01-02")` for the instant `t` (Unix seconds, UTC). -/
def formatDate (t : Nat) : String :=
  match civilFromDays ((t : Int) / 86400) with
  | (y, m, d) => toString y ++ "-" ++ pad2 m ++ "-" ++ pad2 d

/-! ## Submission handlers, variant B (src/unnamed/part_002)

Variant B resolves each submission's referenced field document and builds
`SubmissionResponse` values; a submission whose field id does not resolve is
skipped by the list handler and makes the read handler fail. -/

namespace Part002

/-- Assemble a `SubmissionResponse` from a submission and its resolved
field. -/
def mkResponse (sub : Submission) (field : Field) : SubmissionResponse :=
  { id := sub.id, userId := sub.userId, fieldId := sub.fieldId, field := field
    date := sub.date, growthStage := sub.growthStage
    plantConditions := sub.plantConditions
    traitMeasurements := sub.traitMeasurements, notes := sub.notes
    observerName := sub.observerName, images := sub.images
    status := sub.status, createdAt := sub.createdAt, updatedAt := sub.updatedAt }

/-- `GetSubmissions` (variant B): non-admin callers are restricted to their
own documents, an optional status filter applies, pagination is offset-based
(`Offset((page-1)*limit)` when `page > 1`, then `Limit(limit)`), and each
surviving submission is joined with its field document — submissions whose
field id does not resolve are skipped (`continue`). -/
def GetSubmissions (db : Firestore) (user : User) (page limit : Nat)
    (status : String) : List SubmissionResponse :=
  let q0 := db.submissions.docs
  let q1 := if user.role ≠ "admin" then q0.filter (fun s => s.userId == user.id) else q0
  let q2 := if status ≠ "" then q1.filter (fun s => s.status == status) else q1
  let q3 := if page > 1 then q2.drop ((page - 1) * limit) else q2
  let q4 := q3.take limit
  q4.filterMap (fun sub => (db.fieldDocs.getDoc sub.fieldId).map (mkResponse sub))

/-- `CreateSubmission` (variant B): bind the request, build the document with
a server-generated id (`utils.GenerateID`, modelled by the `freshId`
parameter), the caller as owner, status `submitted` and server timestamps,
then `Set` it. -/
def CreateSubmission (db : Firestore) (user : User)
    (req : CreateSubmissionRequest) (freshId : String) (now : Nat) :
    HOut Submission × Firestore :=
  let submission : Submission :=
    { id := freshId, userId := user.id, fieldId := req.fieldId
      date := req.date, growthStage := req.growthStage
      plantConditions := req.plantConditions
      traitMeasurements := req.traitMeasurements, notes := req.notes
      observerName := req.observerName, images := req.images
      status := "submitted", createdAt := now, updatedAt := now }
  (.ok submission,
    { db with submissions := db.submissions.setDoc freshId submission })

/-- `GetSubmission` (variant B): fetch, 404 when absent, 403 for non-owner
non-admin, then resolve the referenced field; a dangling field id makes the
handler answer 500 `internal_error`. -/
def GetSubmission (db : Firestore) (user : User) (submissionID : String) :
    HOut SubmissionResponse :=
  match db.submissions.getDoc submissionID with
  | none => .err 404 "not_found"
  | some sub =>
    if user.role ≠ "admin" ∧ sub.userId ≠ user.id then
      .err 403 "forbidden"
    else
      match db.fieldDocs.getDoc sub.fieldId with
      | none => .err 500 "internal_error"
      | some field => .ok (mkResponse sub field)

/-- One CSV data row of `ExportSubmissions` (variant B): five values — id,
formatted date, growth stage, observer name, status — under the six-column
header. -/
def csvRow (s : Submission) : String :=
  s.id ++ "," ++ formatDate s.date ++ "," ++ s.growthStage ++ "," ++
    s.observerName ++ "," ++ s.status ++ "\n"

/-- The fixed CSV header row. -/
def csvHeader : String := "ID,Date,Location,Growth Stage,Observer,Status\n"

/-- CSV text built by `ExportSubmissions` (variant B) over the fetched
submissions. -/
def exportCSV (subs : List Submission) : String :=
  subs.foldl (fun acc s => acc ++ csvRow s) csvHeader

/-- `ExportSubmissions` (variant B): non-admin callers export only their own
submissions, admins export everything; the response body is the CSV text. -/
def ExportSubmissions (db : Firestore) (user : User) : String :=
  let subs :=
    if user.role ≠ "admin" then
      db.submissions.docs.filter (fun s => s.userId == user.id)
    else
      db.submissions.docs
  exportCSV subs

end Part002

/-! ## Authorization gate (middleware `RequireAuth`)

Tokens are symbolic values, so an `Authorization` header is modelled as
either a well-formed `Bearer <token>` header or an arbitrary other string
(one that `strings.TrimPrefix(h, "Bearer ")` leaves unchanged). -/

inductive AuthHeader where
  | bearer (tok : Token)
  | other (raw : String)
  deriving DecidableEq

/-- Outcome of the middleware: reject with a status and error kind without
running the downstream handler, or attach the resolved user (plus its id and
role) to the context and continue. -/
inductive AuthOutcome where
  | reject (status : Nat) (kind : String)
  | allow (user : User)
  deriving Repr, DecidableEq

namespace Middleware

/-- `getUserByID` helper of the middleware: `Users().Doc(id).Get`. -/
def getUserByID (db : Firestore) (userID : String) : Option User :=
  db.users.getDoc userID

/-- `RequireAuth`: missing header, non-Bearer header, token that fails
validation, or an embedded user id that does not resolve each abort with
401 `unauthorized`; otherwise the resolved user is attached and the
downstream handler runs. -/
def RequireAuth (db : Firestore) (secret : String) (now : Nat)
    (header : Option AuthHeader) : AuthOutcome :=
  match header with
  | none => .reject 401 "unauthorized"
  | some (.other _) => .reject 401 "unauthorized"
  | some (.bearer tok) =>
    match ValidateToken secret now tok with
    | .error _ => .reject 401 "unauthorized"
    | .ok claims =>
      match getUserByID db claims.userId with
      | none => .reject 401 "unauthorized"
      | some user => .allow user

end Middleware

/-! ## Identity resolution (src/unnamed/part_003, auth handler) -/

namespace AuthHandler

/-- `getOrCreateUser`: look the user up by email
(`Users().Where("email", "==", email)`); if a document exists return it
unchanged, otherwise create a user with default role `observer` and
server-set timestamps under a fresh id. -/
def getOrCreateUser (db : Firestore) (info : GoogleUserInfo)
    (freshId : String) (now : Nat) : User × Firestore :=
  match (db.users.docs.filter (fun u => u.email == info.email)).head? with
  | some u => (u, db)
  | none =>
    let user : User :=
      { id := freshId, email := info.email, name := info.name
        picture := info.picture, role := "observer"
        createdAt := now, updatedAt := now, lastLoginAt := now }
    (user, { db with users := db.users.setDoc freshId user })

/-- `updateUserLastLogin`: field-path update of `last_login_at`; a missing
document only logs the error and leaves the store unchanged. -/
def updateUserLastLogin (db : Firestore) (userID : String) (now : Nat) :
    Firestore :=
  match db.users.getDoc userID with
  | none => db
  | some u =>
    { db with users := db.users.setDoc userID { u with lastLoginAt := now } }

/-- The user-resolution part of `GoogleLogin` after the assertion verifies:
get-or-create by email, then update the stored user's last-login instant. -/
def resolveIdentity (db : Firestore) (info : GoogleUserInfo)
    (freshId : String) (now : Nat) : User × Firestore :=
  let res := getOrCreateUser db info freshId now
  (res.1, updateUserLastLogin res.2 res.1.id now)

end AuthHandler

/-! ## Image handlers (src/backend/models part: image handler file) -/

namespace ImageHandler

/-- `addImageToSubmission`: a Firestore read-modify-write transaction — get
the latest submission document, append the URL to its image list, set the
document back. `RunTransaction` makes the whole body atomic and serializable,
so any concurrent execution of these transactions behaves like some
sequential order of them. -/
def addImageToSubmission (db : Firestore) (submissionID url : String)
    (now : Nat) : Except String Firestore :=
  match db.submissions.getDoc submissionID with
  | none => .error "not found"
  | some sub =>
    .ok { db with
            submissions := db.submissions.setDoc submissionID
              { sub with images := sub.images ++ [url], updatedAt := now } }

/-- A serialized batch of image-append transactions, one per URL, in the
order the store commits them. -/
def runAppends (db : Firestore) (submissionID : String) (urls : List String)
    (now : Nat) : Except String Firestore :=
  match urls with
  | [] => .ok db
  | url :: rest =>
    match addImageToSubmission db submissionID url now with
    | .error e => .error e
    | .ok db2 => runAppends db2 submissionID rest now

/-- Outcome of `UploadImage`: a JSON response, or the goroutine crashing on
an out-of-range string slice before any response is written. -/
inductive UploadOutcome where
  | okResponse (url : String) (db : Firestore)
  | errResponse (status : Nat) (kind : String) (db : Firestore)
  | sliceBoundsCrash
  deriving DecidableEq

/-- `UploadImage`: reject an empty `submission_id` or a missing file or a
disallowed extension with 400; after storing the blob, the guard
`submissionID[:5] != "temp_"` slices the first five bytes of the form value —
when the id is shorter than five bytes this is an out-of-range slice and the
handler panics; otherwise a non-`temp_` id gets the URL appended through the
transaction. `blobURL` stands for the public URL built for the stored
object. -/
def UploadImage (db : Firestore) (submissionID : String)
    (file : Option String) (blobURL : String) (now : Nat) : UploadOutcome :=
  if submissionID = "" then .errResponse 400 "invalid_request" db
  else
    match file with
    | none => .errResponse 400 "invalid_request" db
    | some filename =>
      if ¬ ValidateFileType filename then .errResponse 400 "invalid_file_type" db
      else if submissionID.length < 5 then .sliceBoundsCrash
      else if (submissionID.take 5) ≠ "temp_" then
        match addImageToSubmission db submissionID blobURL now with
        | .error _ => .errResponse 500 "internal_error" db
        | .ok db2 => .okResponse blobURL db2
      else
        .okResponse blobURL db

end ImageHandler

/-! ## Derived update lists

Spec-side views of the stripped caller input, used to state the
frame/refinement properties of the update handlers. -/

/-- The caller-controlled updates that survive the protected-field stripping
of `UpdateSubmission`: everything except `id`, `user_id`, `created_at` and
the force-overwritten `updated_at`. -/
def strippedSubmissionUpdates (data : List (String × FsValue)) :
    List (String × FsValue) :=
  mapDelete "updated_at" (mapDelete "created_at" (mapDelete "user_id" (mapDelete "id" data)))

/-- The caller-controlled updates that survive the protected-field stripping
of `UpdateField`. -/
def strippedFieldUpdates (data : List (String × FsValue)) :
    List (String × FsValue) :=
  mapDelete "updated_at" (mapDelete "created_at" (mapDelete "owner_id" (mapDelete "id" data)))

/-! ## Concrete fixtures used by witnesses and counterexamples -/

def fxTraits : TraitMeasurements := { culmLength := 1, panicleLength := 2, paniclesPerHill := 3, hillsObserved := 4 }

def fxAdmin : User :=
  { id := "ua", email := "root@example.com", name := "Root", picture := ""
    role := "admin", createdAt := 0, updatedAt := 0, lastLoginAt := 0 }

def fxU1 : User :=
  { id := "u1", email := "a@example.com", name := "Alice", picture := ""
    role := "observer", createdAt := 0, updatedAt := 0, lastLoginAt := 0 }

def fxU2 : User :=
  { id := "u2", email := "b@example.com", name := "Bob", picture := ""
    role := "researcher", createdAt := 0, updatedAt := 0, lastLoginAt := 0 }

def fxField1 : Field :=
  { id := "f1", name := "Plot 1", location := "Plot A", riceVariety := "IR64"
    tentativeDate := "", coordinates := { latitude := 0, longitude := 0 }
    area := 2, ownerId := "u1", createdAt := 0, updatedAt := 0 }

def fxSub1 : Submission :=
  { id := "s1", userId := "u1", fieldId := "f1", date := 0
    growthStage := "Seedling", plantConditions := [], traitMeasurements := fxTraits
    notes := "", observerName := "Alice", images := [], status := "submitted"
    createdAt := 0, updatedAt := 0 }

/-- A submission whose `field_id` does not resolve to any stored field. -/
def fxSubDangling : Submission :=
  { id := "s2", userId := "u1", fieldId := "missing", date := 0
    growthStage := "Tillering", plantConditions := [], traitMeasurements := fxTraits
    notes := "", observerName := "Alice", images := [], status := "submitted"
    createdAt := 0, updatedAt := 0 }

def fxDb : Firestore :=
  { users := [("ua", fxAdmin), ("u1", fxU1), ("u2", fxU2)]
    fieldDocs := [("f1", fxField1)]
    submissions := [("s1", fxSub1)] }

/-- A store holding one submission with a dangling field reference and no
field documents at all. -/
def fxDbDangling : Firestore :=
  { users := [("u1", fxU1)]
    fieldDocs := []
    submissions := [("s2", fxSubDangling)] }

/-! ## Store lemmas -/

lemma Collection.getDoc_setDoc_self {α : Type} (col : Collection α)
    (id : String) (v : α) : (col.setDoc id v).getDoc id = some v := by
  induction col with
  | nil => simp [Collection.setDoc, Collection.getDoc]
  | cons kv t ih =>
    by_cases h : kv.1 = id
    · simpa [Collection.setDoc, Collection.getDoc, List.filter_cons, h] using ih
    · simpa [Collection.setDoc, Collection.getDoc, List.filter_cons, h] using ih

lemma Collection.getDoc_setDoc_ne {α : Type} (col : Collection α)
    (id id2 : String) (v : α) (h : id2 ≠ id) :
    (col.setDoc id v).getDoc id2 = col.getDoc id2 := by
  have h2 : ¬ id = id2 := fun e => h e.symm
  induction col with
  | nil => simp [Collection.setDoc, Collection.getDoc, h2]
  | cons kv t ih =>
    by_cases hk : kv.1 = id
    · have hk2 : ¬ kv.1 = id2 := by rw [hk]; exact h2
      simpa [Collection.setDoc, Collection.getDoc, List.filter_cons, hk, hk2, h2] using ih
    · by_cases hk2 : kv.1 = id2
      · simp [Collection.setDoc, Collection.getDoc, List.filter_cons, hk, hk2, h, h2]
      · simpa [Collection.setDoc, Collection.getDoc, List.filter_cons, hk, hk2, h, h2] using ih

lemma mem_mapDelete {key : String} {data : List (String × FsValue)}
    {kv : String × FsValue} (h : kv ∈ mapDelete key data) :
    kv ∈ data ∧ kv.1 ≠ key := by
  have := List.mem_filter.mp h
  refine ⟨this.1, ?_⟩
  simpa using this.2

/-! ## Update-application lemmas -/

lemma applySubmissionUpdate_id (s : Submission) (kv : String × FsValue)
    (h : kv.1 ≠ "id") : (applySubmissionUpdate s kv).id = s.id := by
  rcases kv with ⟨k, v⟩
  cases v <;> simp only [applySubmissionUpdate] <;> split_ifs <;> simp_all

lemma applySubmissionUpdate_userId (s : Submission) (kv : String × FsValue)
    (h : kv.1 ≠ "user_id") : (applySubmissionUpdate s kv).userId = s.userId := by
  rcases kv with ⟨k, v⟩
  cases v <;> simp only [applySubmissionUpdate] <;> split_ifs <;> simp_all

lemma applySubmissionUpdate_createdAt (s : Submission) (kv : String × FsValue)
    (h : kv.1 ≠ "created_at") : (applySubmissionUpdate s kv).createdAt = s.createdAt := by
  rcases kv with ⟨k, v⟩
  cases v <;> simp only [applySubmissionUpdate] <;> split_ifs <;> simp_all

lemma applySubmissionUpdate_updatedAt_comm (s : Submission) (x : Nat)
    (kv : String × FsValue) (h : kv.1 ≠ "updated_at") :
    applySubmissionUpdate { s with updatedAt := x } kv
      = { applySubmissionUpdate s kv with updatedAt := x } := by
  rcases kv with ⟨k, v⟩
  cases v <;> simp only [applySubmissionUpdate] <;> split_ifs <;> simp_all

lemma foldlSubmission_updatedAt_comm (l : List (String × FsValue))
    (h : ∀ kv ∈ l, kv.1 ≠ "updated_at") :
    ∀ (s : Submission) (x : Nat),
      l.foldl applySubmissionUpdate { s with updatedAt := x }
        = { l.foldl applySubmissionUpdate s with updatedAt := x } := by
  induction l with
  | nil => intro s x; rfl
  | cons kv t ih =>
    intro s x
    rw [List.foldl_cons, List.foldl_cons,
      applySubmissionUpdate_updatedAt_comm s x kv (h kv (List.mem_cons_self kv t)),
      ih (fun a ha => h a (List.mem_cons_of_mem kv ha))]

lemma applyFieldUpdate_id (f : Field) (kv : String × FsValue)
    (h : kv.1 ≠ "id") : (applyFieldUpdate f kv).id = f.id := by
  rcases kv with ⟨k, v⟩
  cases v <;> simp only [applyFieldUpdate] <;> split_ifs <;> simp_all

lemma applyFieldUpdate_ownerId (f : Field) (kv : String × FsValue)
    (h : kv.1 ≠ "owner_id") : (applyFieldUpdate f kv).ownerId = f.ownerId := by
  rcases kv with ⟨k, v⟩
  cases v <;> simp only [applyFieldUpdate] <;> split_ifs <;> simp_all

lemma applyFieldUpdate_createdAt (f : Field) (kv : String × FsValue)
    (h : kv.1 ≠ "created_at") : (applyFieldUpdate f kv).createdAt = f.createdAt := by
  rcases kv with ⟨k, v⟩
  cases v <;> simp only [applyFieldUpdate] <;> split_ifs <;> simp_all

lemma applyFieldUpdate_updatedAt_comm (f : Field) (x : Nat)
    (kv : String × FsValue) (h : kv.1 ≠ "updated_at") :
    applyFieldUpdate { f with updatedAt := x } kv
      = { applyFieldUpdate f kv with updatedAt := x } := by
  rcases kv with ⟨k, v⟩
  cases v <;> simp only [applyFieldUpdate] <;> split_ifs <;> simp_all

lemma foldlField_updatedAt_comm (l : List (String × FsValue))
    (h : ∀ kv ∈ l, kv.1 ≠ "updated_at") :
    ∀ (f : Field) (x : Nat),
      l.foldl applyFieldUpdate { f with updatedAt := x }
        = { l.foldl applyFieldUpdate f with updatedAt := x } := by
  induction l with
  | nil => intro f x; rfl
  | cons kv t ih =>
    intro f x
    rw [List.foldl_cons, List.foldl_cons,
      applyFieldUpdate_updatedAt_comm f x kv (h kv (List.mem_cons_self kv t)),
      ih (fun a ha => h a (List.mem_cons_of_mem kv ha))]

lemma foldlSubmission_id (l : List (String × FsValue))
    (h : ∀ kv ∈ l, kv.1 ≠ "id") :
    ∀ s : Submission, (l.foldl applySubmissionUpdate s).id = s.id := by
  induction l with
  | nil => intro s; rfl
  | cons kv t ih =>
    intro s
    rw [List.foldl_cons, ih (fun a ha => h a (List.mem_cons_of_mem kv ha)),
      applySubmissionUpdate_id s kv (h kv (List.mem_cons_self kv t))]

lemma foldlSubmission_userId (l : List (String × FsValue))
    (h : ∀ kv ∈ l, kv.1 ≠ "user_id") :
    ∀ s : Submission, (l.foldl applySubmissionUpdate s).userId = s.userId := by
  induction l with
  | nil => intro s; rfl
  | cons kv t ih =>
    intro s
    rw [List.foldl_cons, ih (fun a ha => h a (List.mem_cons_of_mem kv ha)),
      applySubmissionUpdate_userId s kv (h kv (List.mem_cons_self kv t))]

lemma foldlSubmission_createdAt (l : List (String × FsValue))
    (h : ∀ kv ∈ l, kv.1 ≠ "created_at") :
    ∀ s : Submission, (l.foldl applySubmissionUpdate s).createdAt = s.createdAt := by
  induction l with
  | nil => intro s; rfl
  | cons kv t ih =>
    intro s
    rw [List.foldl_cons, ih (fun a ha => h a (List.mem_cons_of_mem kv ha)),
      applySubmissionUpdate_createdAt s kv (h kv (List.mem_cons_self kv t))]

lemma foldlField_id (l : List (String × FsValue))
    (h : ∀ kv ∈ l, kv.1 ≠ "id") :
    ∀ f : Field, (l.foldl applyFieldUpdate f).id = f.id := by
  induction l with
  | nil => intro f; rfl
  | cons kv t ih =>
    intro f
    rw [List.foldl_cons, ih (fun a ha => h a (List.mem_cons_of_mem kv ha)),
      applyFieldUpdate_id f kv (h kv (List.mem_cons_self kv t))]

lemma foldlField_ownerId (l : List (String × FsValue))
    (h : ∀ kv ∈ l, kv.1 ≠ "owner_id") :
    ∀ f : Field, (l.foldl applyFieldUpdate f).ownerId = f.ownerId := by
  induction l with
  | nil => intro f; rfl
  | cons kv t ih =>
    intro f
    rw [List.foldl_cons, ih (fun a ha => h a (List.mem_cons_of_mem kv ha)),
      applyFieldUpdate_ownerId f kv (h kv (List.mem_cons_self kv t))]

lemma foldlField_createdAt (l : List (String × FsValue))
    (h : ∀ kv ∈ l, kv.1 ≠ "created_at") :
    ∀ f : Field, (l.foldl applyFieldUpdate f).createdAt = f.createdAt := by
  induction l with
  | nil => intro f; rfl
  | cons kv t ih =>
    intro f
    rw [List.foldl_cons, ih (fun a ha => h a (List.mem_cons_of_mem kv ha)),
      applyFieldUpdate_createdAt f kv (h kv (List.mem_cons_self kv t))]

lemma applySubmissionUpdate_set_updatedAt (s : Submission) (x : Nat) :
    applySubmissionUpdate s ("updated_at", .t x) = { s with updatedAt := x } := by
  simp [applySubmissionUpdate]

lemma applyFieldUpdate_set_updatedAt (f : Field) (x : Nat) :
    applyFieldUpdate f ("updated_at", .t x) = { f with updatedAt := x } := by
  simp [applyFieldUpdate]

lemma submissionUpdateList_keys (data : List (String × FsValue)) (now : Nat) :
    ∀ kv ∈ submissionUpdateList data now,
      kv.1 ≠ "id" ∧ kv.1 ≠ "user_id" ∧ kv.1 ≠ "created_at" := by
  intro kv hkv
  unfold submissionUpdateList mapInsert at hkv
  rcases List.mem_cons.mp hkv with h1 | h1
  · subst h1; refine ⟨by simp, by simp, by simp⟩
  · rcases List.mem_append.mp h1 with h2 | h2
    · have h3 := List.mem_filter.mp h2
      have h4 := mem_mapDelete h3.1
      have h5 := mem_mapDelete h4.1
      have h6 := mem_mapDelete h5.1
      exact ⟨h6.2, h5.2, h4.2⟩
    · have : kv = ("updated_at", FsValue.t now) := by simpa using h2
      subst this; refine ⟨by simp, by simp, by simp⟩

lemma fieldUpdateList_keys (data : List (String × FsValue)) (now : Nat) :
    ∀ kv ∈ fieldUpdateList data now,
      kv.1 ≠ "id" ∧ kv.1 ≠ "owner_id" ∧ kv.1 ≠ "created_at" := by
  intro kv hkv
  unfold fieldUpdateList mapInsert at hkv
  rcases List.mem_cons.mp hkv with h1 | h1
  · subst h1; refine ⟨by simp, by simp, by simp⟩
  · rcases List.mem_append.mp h1 with h2 | h2
    · have h3 := List.mem_filter.mp h2
      have h4 := mem_mapDelete h3.1
      have h5 := mem_mapDelete h4.1
      have h6 := mem_mapDelete h5.1
      exact ⟨h6.2, h5.2, h4.2⟩
    · have : kv = ("updated_at", FsValue.t now) := by simpa using h2
      subst this; refine ⟨by simp, by simp, by simp⟩

/-- Structural form of the submission update: the server-built update list
first force-sets `updated_at` and then plays exactly the caller's
non-protected field diffs. -/
lemma foldl_submissionUpdateList (sub : Submission)
    (data : List (String × FsValue)) (now : Nat) :
    (submissionUpdateList data now).foldl applySubmissionUpdate sub
      = { (strippedSubmissionUpdates data).foldl applySubmissionUpdate sub with
            updatedAt := now } := by
  have hkeys : ∀ kv ∈ strippedSubmissionUpdates data, kv.1 ≠ "updated_at" := by
    intro kv hkv
    exact (mem_mapDelete hkv).2
  show ((("updated_at", FsValue.t now) ::
      (strippedSubmissionUpdates data ++ [("updated_at", FsValue.t now)])).foldl
        applySubmissionUpdate sub) = _
  rw [List.foldl_cons, applySubmissionUpdate_set_updatedAt,
    List.foldl_append, foldlSubmission_updatedAt_comm _ hkeys sub now]
  simp [applySubmissionUpdate_set_updatedAt]

/-- Structural form of the field update, mirroring
`foldl_submissionUpdateList`. -/
lemma foldl_fieldUpdateList (f : Field)
    (data : List (String × FsValue)) (now : Nat) :
    (fieldUpdateList data now).foldl applyFieldUpdate f
      = { (strippedFieldUpdates data).foldl applyFieldUpdate f with
            updatedAt := now } := by
  have hkeys : ∀ kv ∈ strippedFieldUpdates data, kv.1 ≠ "updated_at" := by
    intro kv hkv
    exact (mem_mapDelete hkv).2
  show ((("updated_at", FsValue.t now) ::
      (strippedFieldUpdates data ++ [("updated_at", FsValue.t now)])).foldl
        applyFieldUpdate f) = _
  rw [List.foldl_cons, applyFieldUpdate_set_updatedAt,
    List.foldl_append, foldlField_updatedAt_comm _ hkeys f now]
  simp [applyFieldUpdate_set_updatedAt]

/-- The update list the submission handler builds always carries the field
path `updated_at` twice: once seeded at the head and once from the
force-set map entry. -/
lemma submissionUpdateList_dup (data : List (String × FsValue)) (now : Nat) :
    pathsHaveDup ((submissionUpdateList data now).map Prod.fst) = true := by
  simp [submissionUpdateList, mapInsert, pathsHaveDup]

/-- The field handler's update list carries the `updated_at` path twice in
the same way. -/
lemma fieldUpdateList_dup (data : List (String × FsValue)) (now : Nat) :
    pathsHaveDup ((fieldUpdateList data now).map Prod.fst) = true := by
  simp [fieldUpdateList, mapInsert, pathsHaveDup]

/-- Consequently every submission update that passes the fetch and the
permission check dies in the client-side duplicate-path validation of
`DocumentRef.Update`: the handler answers 500 `internal_error` and the
store is untouched. -/
lemma updateSubmission_duplicate_path (db : Firestore) (u : User)
    (sid : String) (data : List (String × FsValue)) (now : Nat)
    (sub : Submission) (hGet : db.submissions.getDoc sid = some sub)
    (hPerm : u.role = "admin" ∨ sub.userId = u.id) :
    SubmissionsA.UpdateSubmission db u sid data now
      = (.err 500 "internal_error", db) := by
  have hCond : ¬ (u.role ≠ "admin" ∧ sub.userId ≠ u.id) := by
    rcases hPerm with h | h
    · exact fun hc => hc.1 h
    · exact fun hc => hc.2 h
  simp [SubmissionsA.UpdateSubmission, hGet, if_neg hCond, firestoreUpdate,
    submissionUpdateList_dup]

/-- The field handler dies in the same client-side duplicate-path
validation on every permitted update. -/
lemma updateField_duplicate_path (db : Firestore) (u : User)
    (fid : String) (data : List (String × FsValue)) (now : Nat)
    (f : Field) (hGet : db.fieldDocs.getDoc fid = some f)
    (hPerm : u.role = "admin" ∨ f.ownerId = u.id) :
    FieldsHandler.UpdateField db u fid data now
      = (.err 500 "internal_error", db) := by
  have hCond : ¬ (u.role ≠ "admin" ∧ f.ownerId ≠ u.id) := by
    rcases hPerm with h | h
    · exact fun hc => hc.1 h
    · exact fun hc => hc.2 h
  simp [FieldsHandler.UpdateField, FieldsHandler.getFieldByID, hGet,
    if_neg hCond, firestoreUpdate, fieldUpdateList_dup]

/-! ## Claim theorems -/
/-- Claim C2 at its failing behaviour (code bug): the handlers do strip
`id`, `user_id`/`owner_id` and `created_at` and do force-insert
`updated_at`, but they also seed the update slice with a second `updated_at`
entry, so the list handed to `DocumentRef.Update` always carries that field
path twice; the Firestore client rejects it client-side, and every permitted
Update call answers 500 `internal_error` with the stored record untouched —
updated-at is never actually set and no field diff is ever written. -/
theorem claim_C2_update_always_rejected :
    (∀ (db : Firestore) (u : User) (sid : String)
        (data : List (String × FsValue)) (now : Nat) (sub : Submission),
      db.submissions.getDoc sid = some sub →
      (u.role = "admin" ∨ sub.userId = u.id) →
      SubmissionsA.UpdateSubmission db u sid data now
        = (.err 500 "internal_error", db))
    ∧
    (∀ (db : Firestore) (u : User) (fid : String)
        (data : List (String × FsValue)) (now : Nat) (f : Field),
      db.fieldDocs.getDoc fid = some f →
      (u.role = "admin" ∨ f.ownerId = u.id) →
      FieldsHandler.UpdateField db u fid data now
        = (.err 500 "internal_error", db)) :=
  ⟨updateSubmission_duplicate_path, updateField_duplicate_path⟩

/-- Witness for the C2 failing input: the owner updating only `status`, and
the admin updating only `name`, both receive 500 `internal_error` and the
concrete store is unchanged. -/
theorem claim_C2_update_always_rejected_witness :
    SubmissionsA.UpdateSubmission fxDb fxU1 "s1" [("status", .s "approved")] 5
      = (.err 500 "internal_error", fxDb) ∧
    FieldsHandler.UpdateField fxDb fxAdmin "f1" [("name", .s "Plot 9")] 7
      = (.err 500 "internal_error", fxDb) :=
  ⟨claim_C2_update_always_rejected.1 fxDb fxU1 "s1" [("status", .s "approved")] 5
      fxSub1 (by decide) (Or.inr (by decide)),
    claim_C2_update_always_rejected.2 fxDb fxAdmin "f1" [("name", .s "Plot 9")] 7
      fxField1 (by decide) (Or.inl (by decide))⟩

/-- Claim C4: a freshly issued access token validates under the issuing
secret and yields the same user id, email and role it was issued with;
a token signed with a different secret is rejected, and so is any token
whose expiry instant is in the past. -/
theorem claim_C4_token_roundtrip :
    (∀ (secret : String) (u : User) (now : Nat),
      ValidateToken secret now (GenerateTokens secret u now).1
        = .ok { userId := u.id, email := u.email, role := u.role
                exp := now + 3600, iat := now })
    ∧
    (∀ (secret other : String) (c : Claims) (now : Nat), other ≠ secret →
      ValidateToken secret now (signClaims other c) = .error "signature is invalid")
    ∧
    (∀ (secret : String) (t : Token) (now : Nat), t.claims.exp < now →
      ∃ e, ValidateToken secret now t = .error e) := by
  refine ⟨?_, ?_, ?_⟩
  · intro secret u now
    simp [ValidateToken, GenerateTokens, signClaims]
  · intro secret other c now h
    simp [ValidateToken, signClaims, h]
  · intro secret t now h
    by_cases hs : t.sig = { key := secret, payload := t.claims : Sig }
    · refine ⟨"token is expired", ?_⟩
      simp [ValidateToken, hs, Nat.le_of_lt h]
    · exact ⟨"signature is invalid", by simp [ValidateToken, hs]⟩

/-- Witness for C4 at concrete inputs: issue-then-validate round-trips for
a concrete user, a token signed under a second secret is rejected, and a
token that expired at instant 1 is rejected at instant 5. -/
theorem claim_C4_token_roundtrip_witness :
    (ValidateToken "k1" 0 (GenerateTokens "k1" fxU1 0).1
      = .ok { userId := fxU1.id, email := fxU1.email, role := fxU1.role
              exp := 3600, iat := 0 })
    ∧
    (ValidateToken "k1" 0
        (signClaims "k2"
          { userId := "u1", email := "a@example.com", role := "observer"
            exp := 3600, iat := 0 })
      = .error "signature is invalid")
    ∧
    (∃ e, ValidateToken "k1" 5
        { claims := { userId := "u1", email := "a@example.com"
                      role := "observer", exp := 1, iat := 0 }
          sig := { key := "k1"
                   payload := { userId := "u1", email := "a@example.com"
                                role := "observer", exp := 1, iat := 0 } } }
      = .error e) :=
  ⟨claim_C4_token_roundtrip.1 "k1" fxU1 0,
    claim_C4_token_roundtrip.2.1 "k1" "k2" _ 0 (by decide),
    claim_C4_token_roundtrip.2.2 "k1" _ 5 (by decide)⟩

/-- Claim C9: `addImageToSubmission` performs the append inside a Firestore
read-modify-write transaction, so every concurrent schedule of N uploads to
the same submission is equivalent to some serial order of the N transactions
(the store's serializability guarantee); executed in any serial order, the N
appends leave the image list extended by exactly the N URLs — no append is
lost. -/
theorem claim_C9_concurrent_appends_not_lost :
    ∀ (db : Firestore) (sid : String) (urls : List String) (now : Nat)
      (sub : Submission),
      db.submissions.getDoc sid = some sub →
      ∃ db2, ImageHandler.runAppends db sid urls now = .ok db2 ∧
        ∃ sub2, db2.submissions.getDoc sid = some sub2 ∧
          sub2.images = sub.images ++ urls ∧
          sub2.images.length = sub.images.length + urls.length := by
  intro db sid urls now
  induction urls generalizing db with
  | nil =>
    intro sub hGet
    exact ⟨db, rfl, sub, hGet, by simp, by simp⟩
  | cons url rest ih =>
    intro sub hGet
    have hStep :
        ImageHandler.addImageToSubmission db sid url now
          = .ok { db with
                    submissions := db.submissions.setDoc sid
                      ({ sub with images := sub.images ++ [url], updatedAt := now }) } := by
      simp [ImageHandler.addImageToSubmission, hGet]
    have hGet2 :
        ({ db with
             submissions := db.submissions.setDoc sid
               ({ sub with images := sub.images ++ [url], updatedAt := now }) } :
              Firestore).submissions.getDoc sid
          = some { sub with images := sub.images ++ [url], updatedAt := now } :=
      Collection.getDoc_setDoc_self _ _ _
    obtain ⟨db2, hRun, sub2, hG2, hImg, hLen⟩ := ih _ _ hGet2
    refine ⟨db2, ?_, sub2, hG2, ?_, ?_⟩
    · simp [ImageHandler.runAppends, hStep, hRun]
    · simpa [List.append_assoc] using hImg
    · simp [hLen, Nat.add_comm, Nat.add_assoc, Nat.add_left_comm]

/-- Witness for C9: three appends to the concrete stored submission leave
exactly three new image entries. -/
theorem claim_C9_concurrent_appends_not_lost_witness :
    ∃ db2, ImageHandler.runAppends fxDb "s1" ["i1", "i2", "i3"] 9 = .ok db2 ∧
      ∃ sub2, db2.submissions.getDoc "s1" = some sub2 ∧
        sub2.images = fxSub1.images ++ ["i1", "i2", "i3"] ∧
        sub2.images.length = fxSub1.images.length + 3 :=
  claim_C9_concurrent_appends_not_lost fxDb "s1" ["i1", "i2", "i3"] 9 fxSub1
    (by decide)

/-- Claim C10: an authenticated upload whose `submission_id` is non-empty
but shorter than five bytes and whose file passes the extension allow-list
reaches `submissionID[:5]` and panics on the out-of-range slice instead of
writing any JSON response. -/
theorem claim_C10_short_submission_id_panics :
    ∀ (db : Firestore) (sid filename blobURL : String) (now : Nat),
      sid ≠ "" → sid.length < 5 → ValidateFileType filename = true →
      ImageHandler.UploadImage db sid (some filename) blobURL now
        = .sliceBoundsCrash := by
  intro db sid filename blobURL now h1 h2 h3
  simp [ImageHandler.UploadImage, h1, h2, h3]

/-- Witness for C10: `submission_id` of three characters with a `.jpg`
upload crashes the handler on the concrete store. -/
theorem claim_C10_short_submission_id_panics_witness :
    ImageHandler.UploadImage fxDb "abc" (some "photo.jpg") "http://x/y" 3
      = .sliceBoundsCrash :=
  claim_C10_short_submission_id_panics fxDb "abc" "photo.jpg" "http://x/y" 3
    (by decide) (by decide) (by decide)

/-- Claim C5: the Authorization Gate rejects with 401 `unauthorized` without
invoking the downstream handler exactly when the header is missing, the
header carries no Bearer prefix, the bearer token fails validation, or the
embedded user id does not resolve to a stored User; otherwise it attaches
the resolved user and the handler runs. -/
theorem claim_C5_auth_gate_behaviour :
    (∀ (db : Firestore) (secret : String) (now : Nat),
      Middleware.RequireAuth db secret now none = .reject 401 "unauthorized")
    ∧
    (∀ (db : Firestore) (secret raw : String) (now : Nat),
      Middleware.RequireAuth db secret now (some (.other raw))
        = .reject 401 "unauthorized")
    ∧
    (∀ (db : Firestore) (secret : String) (now : Nat) (tok : Token) (e : String),
      ValidateToken secret now tok = .error e →
      Middleware.RequireAuth db secret now (some (.bearer tok))
        = .reject 401 "unauthorized")
    ∧
    (∀ (db : Firestore) (secret : String) (now : Nat) (tok : Token) (claims : Claims),
      ValidateToken secret now tok = .ok claims →
      Middleware.getUserByID db claims.userId = none →
      Middleware.RequireAuth db secret now (some (.bearer tok))
        = .reject 401 "unauthorized")
    ∧
    (∀ (db : Firestore) (secret : String) (now : Nat) (tok : Token)
        (claims : Claims) (user : User),
      ValidateToken secret now tok = .ok claims →
      Middleware.getUserByID db claims.userId = some user →
      Middleware.RequireAuth db secret now (some (.bearer tok)) = .allow user)
    ∧
    (∀ (db : Firestore) (secret : String) (now : Nat)
        (header : Option AuthHeader) (user : User),
      Middleware.RequireAuth db secret now header = .allow user →
      ∃ tok claims, header = some (.bearer tok) ∧
        ValidateToken secret now tok = .ok claims ∧
        Middleware.getUserByID db claims.userId = some user) := by
  refine ⟨fun db secret now => rfl, fun db secret raw now => rfl, ?_, ?_, ?_, ?_⟩
  · intro db secret now tok e h
    simp [Middleware.RequireAuth, h]
  · intro db secret now tok claims hv hg
    simp [Middleware.RequireAuth, hv, hg]
  · intro db secret now tok claims user hv hg
    simp [Middleware.RequireAuth, hv, hg]
  · intro db secret now header user hAllow
    match header with
    | none => simp [Middleware.RequireAuth] at hAllow
    | some (.other raw) => simp [Middleware.RequireAuth] at hAllow
    | some (.bearer tok) =>
      cases hv : ValidateToken secret now tok with
      | error e => simp [Middleware.RequireAuth, hv] at hAllow
      | ok claims =>
        cases hg : Middleware.getUserByID db claims.userId with
        | none => simp [Middleware.RequireAuth, hv, hg] at hAllow
        | some u2 =>
          have : u2 = user := by
            simpa [Middleware.RequireAuth, hv, hg] using hAllow
          exact ⟨tok, claims, rfl, hv, by rw [hg, this]⟩

/-- Witness for C5: a fresh valid access token for the concrete stored user
passes the gate and attaches that user. -/
theorem claim_C5_auth_gate_behaviour_witness :
    Middleware.RequireAuth fxDb "k1" 0
        (some (.bearer (GenerateTokens "k1" fxU1 0).1)) = .allow fxU1 :=
  claim_C5_auth_gate_behaviour.2.2.2.2.1 fxDb "k1" 0
    (GenerateTokens "k1" fxU1 0).1
    { userId := "u1", email := "a@example.com", role := "observer"
      exp := 3600, iat := 0 }
    fxU1 (by rfl) (by rfl)

/-- Claim C6: every Create Submission call stores and returns a record whose
id is the server-generated UUID, whose owner is the authenticated caller,
whose status is exactly `submitted` and whose created-at/updated-at are
server-set; the request type carries no id or status for the caller to
choose. -/
theorem claim_C6_create_submission_server_fields :
    ∀ (db : Firestore) (u : User) (req : CreateSubmissionRequest)
      (freshId : String) (now : Nat),
      ∃ sub0,
        Part002.CreateSubmission db u req freshId now
          = (.ok sub0, { db with submissions := db.submissions.setDoc freshId sub0 }) ∧
        (Part002.CreateSubmission db u req freshId now).2.submissions.getDoc freshId
          = some sub0 ∧
        sub0.id = freshId ∧ sub0.userId = u.id ∧ sub0.status = "submitted" ∧
        sub0.createdAt = now ∧ sub0.updatedAt = now := by
  intro db u req freshId now
  refine ⟨_, rfl, ?_, rfl, rfl, rfl, rfl, rfl⟩
  simp [Part002.CreateSubmission, Collection.getDoc_setDoc_self]

/-- Claim C8: when no user carries the asserted email, a new user with role
exactly `observer` and server-set timestamps is created under a fresh id and
no other document changes; when a user with that email exists, that user is
returned, no new record appears and only its last-login instant changes (in
particular its role is untouched); in both branches the stored user's
last-login is set to the resolution instant. -/
theorem claim_C8_identity_resolution :
    (∀ (db : Firestore) (info : GoogleUserInfo) (freshId : String) (now : Nat),
      db.users.docs.filter (fun x => x.email == info.email) = [] →
      (AuthHandler.resolveIdentity db info freshId now).1.role = "observer" ∧
      (AuthHandler.resolveIdentity db info freshId now).1.id = freshId ∧
      (AuthHandler.resolveIdentity db info freshId now).1.email = info.email ∧
      (AuthHandler.resolveIdentity db info freshId now).1.createdAt = now ∧
      (AuthHandler.resolveIdentity db info freshId now).1.updatedAt = now ∧
      (AuthHandler.resolveIdentity db info freshId now).1.lastLoginAt = now ∧
      (AuthHandler.resolveIdentity db info freshId now).2.users.getDoc freshId
        = some (AuthHandler.resolveIdentity db info freshId now).1 ∧
      (∀ uid, uid ≠ freshId →
        (AuthHandler.resolveIdentity db info freshId now).2.users.getDoc uid
          = db.users.getDoc uid))
    ∧
    (∀ (db : Firestore) (info : GoogleUserInfo) (freshId : String) (now : Nat)
        (u : User) (rest : List User),
      db.users.docs.filter (fun x => x.email == info.email) = u :: rest →
      db.users.getDoc u.id = some u →
      (AuthHandler.resolveIdentity db info freshId now).1 = u ∧
      (AuthHandler.resolveIdentity db info freshId now).2.users.getDoc u.id
        = some { u with lastLoginAt := now } ∧
      (∀ uid, uid ≠ u.id →
        (AuthHandler.resolveIdentity db info freshId now).2.users.getDoc uid
          = db.users.getDoc uid)) := by
  constructor
  · intro db info freshId now hFilter
    refine ⟨?_, ?_, ?_, ?_, ?_, ?_, ?_, ?_⟩ <;>
      simp [AuthHandler.resolveIdentity, AuthHandler.getOrCreateUser,
        AuthHandler.updateUserLastLogin, hFilter, Collection.getDoc_setDoc_self]
    intro uid huid
    rw [Collection.getDoc_setDoc_ne _ _ _ _ huid,
      Collection.getDoc_setDoc_ne _ _ _ _ huid]
  · intro db info freshId now u rest hFilter hKey
    refine ⟨?_, ?_, ?_⟩ <;>
      simp [AuthHandler.resolveIdentity, AuthHandler.getOrCreateUser,
        AuthHandler.updateUserLastLogin, hFilter, hKey,
        Collection.getDoc_setDoc_self]
    intro uid huid
    rw [Collection.getDoc_setDoc_ne _ _ _ _ huid]

/-- Witness for C8 on the concrete store: a first-seen email produces an
`observer`; the already-known email `a@example.com` resolves to the stored
Alice record and only bumps her last-login instant. -/
theorem claim_C8_identity_resolution_witness :
    (AuthHandler.resolveIdentity fxDb
        { email := "new@example.com", name := "Nadia", picture := "" }
        "u9" 11).1.role = "observer" ∧
    (AuthHandler.resolveIdentity fxDb
        { email := "a@example.com", name := "Alice", picture := "" }
        "u9" 11).1 = fxU1 ∧
    (AuthHandler.resolveIdentity fxDb
        { email := "a@example.com", name := "Alice", picture := "" }
        "u9" 11).2.users.getDoc "u1" = some { fxU1 with lastLoginAt := 11 } :=
  ⟨(claim_C8_identity_resolution.1 fxDb
      { email := "new@example.com", name := "Nadia", picture := "" }
      "u9" 11 (by decide)).1,
    (claim_C8_identity_resolution.2 fxDb
      { email := "a@example.com", name := "Alice", picture := "" }
      "u9" 11 fxU1 [] (by decide) (by decide)).1,
    (claim_C8_identity_resolution.2 fxDb
      { email := "a@example.com", name := "Alice", picture := "" }
      "u9" 11 fxU1 [] (by decide) (by decide)).2.1⟩

/-- Counterexample to claim C1 as stated: `GetFields` takes no ownership or
role input at all, so the non-admin caller `fxU2` listing fields receives the
full collection, including the field owned by `u1` — not only the caller's
own records. -/
theorem claim_C1_counterexample_field_listing :
    fxU2.role ≠ "admin" ∧
    FieldsHandler.GetFields fxDb = [fxField1] ∧
    fxField1.ownerId ≠ fxU2.id := by decide

/-- Claim C1 as amended: Read/Update/Delete on a Submission or Field owned
by another user answer 403 `forbidden` for non-admin callers with the store
unchanged; Read and Delete by an admin succeed, while Update — by an admin
or the owner alike — always answers 500 `internal_error` with the record
unchanged, because the handler's update list carries the `updated_at` field
path twice and the Firestore client rejects it; Submission listing restricts
non-admins to their own records, but Field listing is unrestricted and
returns every stored field to every authenticated caller. -/
theorem claim_C1_ownership_checks_amended :
    (∀ (db : Firestore) (u : User) (sid : String) (sub : Submission),
      db.submissions.getDoc sid = some sub →
      u.role ≠ "admin" → sub.userId ≠ u.id →
      SubmissionsA.GetSubmission db u sid = .err 403 "forbidden" ∧
      (∀ data now, SubmissionsA.UpdateSubmission db u sid data now
        = (.err 403 "forbidden", db)) ∧
      SubmissionsA.DeleteSubmission db u sid = (.err 403 "forbidden", db))
    ∧
    (∀ (db : Firestore) (u : User) (fid : String) (f : Field),
      db.fieldDocs.getDoc fid = some f →
      u.role ≠ "admin" → f.ownerId ≠ u.id →
      FieldsHandler.GetField db u fid = .err 403 "forbidden" ∧
      (∀ data now, FieldsHandler.UpdateField db u fid data now
        = (.err 403 "forbidden", db)) ∧
      FieldsHandler.DeleteField db u fid = (.err 403 "forbidden", db))
    ∧
    (∀ (db : Firestore) (u : User) (sid : String) (sub : Submission),
      db.submissions.getDoc sid = some sub → u.role = "admin" →
      SubmissionsA.GetSubmission db u sid = .ok sub ∧
      (∀ data now, SubmissionsA.UpdateSubmission db u sid data now
        = (.err 500 "internal_error", db)) ∧
      SubmissionsA.DeleteSubmission db u sid
        = (.ok (), { db with submissions := db.submissions.deleteDoc sid }))
    ∧
    (∀ (db : Firestore) (u : User) (fid : String) (f : Field),
      db.fieldDocs.getDoc fid = some f → u.role = "admin" →
      FieldsHandler.GetField db u fid = .ok f ∧
      (∀ data now, FieldsHandler.UpdateField db u fid data now
        = (.err 500 "internal_error", db)) ∧
      FieldsHandler.DeleteField db u fid
        = (.ok (), { db with fieldDocs := db.fieldDocs.deleteDoc fid }))
    ∧
    (∀ (db : Firestore) (u : User) (page limit : Nat) (status : String)
        (r : SubmissionResponse),
      u.role ≠ "admin" →
      r ∈ Part002.GetSubmissions db u page limit status →
      r.userId = u.id)
    ∧
    (∀ (db : Firestore) (f : Field),
      f ∈ FieldsHandler.GetFields db ↔ ∃ k, (k, f) ∈ db.fieldDocs) := by
  refine ⟨?_, ?_, ?_, ?_, ?_, ?_⟩
  · intro db u sid sub hGet hRole hOwn
    refine ⟨?_, ?_, ?_⟩ <;>
      simp [SubmissionsA.GetSubmission, SubmissionsA.UpdateSubmission,
        SubmissionsA.DeleteSubmission, hGet, hRole, hOwn]
  · intro db u fid f hGet hRole hOwn
    refine ⟨?_, ?_, ?_⟩ <;>
      simp [FieldsHandler.GetField, FieldsHandler.UpdateField,
        FieldsHandler.DeleteField, FieldsHandler.getFieldByID, hGet, hRole, hOwn]
  · intro db u sid sub hGet hRole
    have hCond : ¬ (u.role ≠ "admin" ∧ sub.userId ≠ u.id) := fun hc => hc.1 hRole
    refine ⟨?_,
      fun data now =>
        updateSubmission_duplicate_path db u sid data now sub hGet (Or.inl hRole),
      ?_⟩ <;>
      simp [SubmissionsA.GetSubmission, SubmissionsA.DeleteSubmission,
        hGet, if_neg hCond]
  · intro db u fid f hGet hRole
    have hCond : ¬ (u.role ≠ "admin" ∧ f.ownerId ≠ u.id) := fun hc => hc.1 hRole
    refine ⟨?_,
      fun data now =>
        updateField_duplicate_path db u fid data now f hGet (Or.inl hRole),
      ?_⟩ <;>
      simp [FieldsHandler.GetField, FieldsHandler.DeleteField,
        FieldsHandler.getFieldByID, hGet, if_neg hCond]
  · intro db u page limit status r hRole hr
    simp only [Part002.GetSubmissions, if_pos hRole] at hr
    rcases List.mem_filterMap.mp hr with ⟨sub, hsub, hmap⟩
    have hsub2 := List.take_subset _ _ hsub
    have hsub3 : sub ∈ (if status ≠ "" then
        List.filter (fun s => s.status == status)
          (List.filter (fun s => s.userId == u.id) db.submissions.docs)
      else List.filter (fun s => s.userId == u.id) db.submissions.docs) := by
      by_cases hp : page > 1
      · rw [if_pos hp] at hsub2
        exact List.drop_subset _ _ hsub2
      · rw [if_neg hp] at hsub2
        exact hsub2
    have hsub4 : sub ∈ List.filter (fun s => s.userId == u.id) db.submissions.docs := by
      by_cases hst : status ≠ ""
      · rw [if_pos hst] at hsub3
        exact List.mem_of_mem_filter hsub3
      · rw [if_neg hst] at hsub3
        exact hsub3
    have hUid : sub.userId = u.id := by
      have := (List.mem_filter.mp hsub4).2
      simpa using this
    rcases Option.map_eq_some'.mp hmap with ⟨f, hf, hmk⟩
    rw [← hmk]
    exact hUid
  · intro db f
    constructor
    · intro hf
      rcases List.mem_map.mp hf with ⟨kv, hkv, hsnd⟩
      exact ⟨kv.1, by rwa [← hsnd, Prod.mk.eta]⟩
    · intro ⟨k, hk⟩
      exact List.mem_map.mpr ⟨(k, f), hk, rfl⟩

/-- Witness for the amended C1 on the concrete store: the non-admin `u2` is
refused foreign submission and field reads with 403, the admin reads both
successfully, and the admin's update attempt gets 500 `internal_error` with
the store unchanged. -/
theorem claim_C1_ownership_checks_amended_witness :
    SubmissionsA.GetSubmission fxDb fxU2 "s1" = .err 403 "forbidden" ∧
    FieldsHandler.GetField fxDb fxU2 "f1" = .err 403 "forbidden" ∧
    SubmissionsA.GetSubmission fxDb fxAdmin "s1" = .ok fxSub1 ∧
    FieldsHandler.GetField fxDb fxAdmin "f1" = .ok fxField1 ∧
    SubmissionsA.UpdateSubmission fxDb fxAdmin "s1" [("notes", .s "x")] 9
      = (.err 500 "internal_error", fxDb) :=
  ⟨(claim_C1_ownership_checks_amended.1 fxDb fxU2 "s1" fxSub1
      (by decide) (by decide) (by decide)).1,
    (claim_C1_ownership_checks_amended.2.1 fxDb fxU2 "f1" fxField1
      (by decide) (by decide) (by decide)).1,
    (claim_C1_ownership_checks_amended.2.2.1 fxDb fxAdmin "s1" fxSub1
      (by decide) (by decide)).1,
    (claim_C1_ownership_checks_amended.2.2.2.1 fxDb fxAdmin "f1" fxField1
      (by decide) (by decide)).1,
    (claim_C1_ownership_checks_amended.2.2.1 fxDb fxAdmin "s1" fxSub1
      (by decide) (by decide)).2.1 [("notes", .s "x")] 9⟩

/-- Claim C3 at the failing input (code bug): the export of one submission
does have n+1 = 2 lines, and the header announces six columns with Location
third, but the data row carries only five comma-separated values — id, date,
growth stage, observer, status — so the growth stage sits under the Location
column and the field's location value `Plot A` appears nowhere. -/
theorem claim_C3_csv_row_missing_location :
    (Part002.exportCSV [fxSub1]).data.count '\n' = 2 ∧
    splitChar '\n' (Part002.exportCSV [fxSub1])
      = ["ID,Date,Location,Growth Stage,Observer,Status",
         "s1,1970-01-01,Seedling,Alice,submitted", ""] ∧
    (splitChar ',' "ID,Date,Location,Growth Stage,Observer,Status").length = 6 ∧
    splitChar ',' "s1,1970-01-01,Seedling,Alice,submitted"
      = [fxSub1.id, formatDate fxSub1.date, fxSub1.growthStage,
         fxSub1.observerName, fxSub1.status] ∧
    (splitChar ',' "s1,1970-01-01,Seedling,Alice,submitted").length = 5 ∧
    fxField1.location = "Plot A" := by decide

/-- Counterexample to claim C7 as stated: on a store holding one submission
whose `field_id` resolves to nothing, the owner's Read answers 500
`internal_error` instead of the record, and List omits the submission
entirely. -/
theorem claim_C7_counterexample_dangling_field :
    fxDbDangling.submissions.getDoc "s2" = some fxSubDangling ∧
    fxDbDangling.fieldDocs.getDoc fxSubDangling.fieldId = none ∧
    fxSubDangling.userId = fxU1.id ∧
    Part002.GetSubmission fxDbDangling fxU1 "s2" = .err 500 "internal_error" ∧
    Part002.GetSubmissions fxDbDangling fxU1 1 20 "" = [] := by decide

/-- Claim C7 as amended: the read side does not tolerate dangling field
references — Read of a submission whose field id does not resolve answers
500 `internal_error` even for its owner or an admin, and every row returned
by List carries a field document that did resolve (dangling submissions are
skipped). -/
theorem claim_C7_dangling_references_amended :
    (∀ (db : Firestore) (u : User) (sid : String) (sub : Submission),
      db.submissions.getDoc sid = some sub →
      db.fieldDocs.getDoc sub.fieldId = none →
      (u.role = "admin" ∨ sub.userId = u.id) →
      Part002.GetSubmission db u sid = .err 500 "internal_error")
    ∧
    (∀ (db : Firestore) (u : User) (page limit : Nat) (status : String)
        (r : SubmissionResponse),
      r ∈ Part002.GetSubmissions db u page limit status →
      ∃ f, db.fieldDocs.getDoc r.fieldId = some f ∧ r.field = f) := by
  constructor
  · intro db u sid sub hGet hField hPerm
    have hCond : ¬ (u.role ≠ "admin" ∧ sub.userId ≠ u.id) := by
      rcases hPerm with h | h
      · exact fun hc => hc.1 h
      · exact fun hc => hc.2 h
    simp [Part002.GetSubmission, hGet, if_neg hCond, hField]
  · intro db u page limit status r hr
    simp only [Part002.GetSubmissions] at hr
    rcases List.mem_filterMap.mp hr with ⟨sub, hsub, hmap⟩
    rcases Option.map_eq_some'.mp hmap with ⟨f, hf, hmk⟩
    refine ⟨f, ?_, ?_⟩
    · rw [← hmk]; exact hf
    · rw [← hmk]; rfl

/-- Witness for the amended C7: the concrete dangling submission's owner
gets 500 `internal_error` on Read. -/
theorem claim_C7_dangling_references_amended_witness :
    Part002.GetSubmission fxDbDangling fxU1 "s2" = .err 500 "internal_error" :=
  claim_C7_dangling_references_amended.1 fxDbDangling fxU1 "s2" fxSubDangling
    (by decide) (by decide) (Or.inr (by decide))

end RiceMonitor
